import Mathlib

/-!
Verification of the robot command protocol bridge.

A shallow embedding of the protocol/bridge code of the repository:

* `server/index.js` — the WebSocket-to-TCP proxy ("consolidated server"):
  frame scanning, command correlation (single pending slot, 5000 ms timeout),
  encoding auto-detection, Modbus polling.
* `unnamed/part_000` — the earlier server variant (`sendToRobot`,
  `handleRobotResponse`, and its close handler on the robot socket).
* `src/App.vue` — `ProtocolParser`, `CommandBuilder`, `RobotProtocolClient`
  (browser-side correlator keyed by command id).
* `src/services/robotState.ts` — `handleModbusData` register decoding.

Wire text is modelled as `List Char`; raw socket bytes as `List Nat`;
JavaScript numbers as `ℚ` (all values in scope are decimal literals and
integers, on which JS double arithmetic is exact for the operations used).
JS regular-expression calls are modelled by hand-rolled scanners that follow
the exact pattern in the source.
-/

/-- JS `\s` (the whitespace class as used by `trim`, `split(/\s+/)` and the
protocol regexes) restricted to the ASCII whitespace characters: TAB (9),
LF (10), VT (11), FF (12), CR (13) and space (32). -/
def isSpaceChar (c : Char) : Bool :=
  (Nat.ble 9 c.toNat && Nat.ble c.toNat 13) || c.toNat == 32

/-- ASCII digit test, as matched by `\d` in the regexes of the source. -/
def isDigitChar (c : Char) : Bool :=
  Nat.ble 48 c.toNat && Nat.ble c.toNat 57

/-- Drop the leading run of whitespace (the `\s*` parts of the regexes). -/
def skipSpaces : List Char → List Char
  | [] => []
  | c :: r => if isSpaceChar c then skipSpaces r else c :: r

/-- Split off the maximal leading run of ASCII digits (the `\d+` parts,
greedy). -/
def readDigits : List Char → List Char × List Char
  | [] => ([], [])
  | c :: r =>
    if isDigitChar c then
      let p := readDigits r
      (c :: p.1, p.2)
    else ([], c :: r)

/-- Decimal value of a digit string, as `parseInt` computes it on a `\d+`
capture group. -/
def digitsToNat (l : List Char) : Nat :=
  l.foldl (fun a c => a * 10 + (c.toNat - 48)) 0

/-- Decimal digits of `n`, as JS template interpolation prints a
non-negative integer. -/
def natToChars (n : Nat) : List Char :=
  if h : n < 10 then [Char.ofNat (48 + n)]
  else natToChars (n / 10) ++ [Char.ofNat (48 + n % 10)]

theorem natToChars_small (n : Nat) (h : n < 10) :
    natToChars n = [Char.ofNat (48 + n)] := by
  unfold natToChars; simp [h]

theorem natToChars_step (n : Nat) (h : ¬ n < 10) :
    natToChars n = natToChars (n / 10) ++ [Char.ofNat (48 + n % 10)] := by
  conv_lhs => unfold natToChars
  simp [h]

theorem digit_char_toNat (d : Nat) (h : d < 10) :
    (Char.ofNat (48 + d)).toNat = 48 + d := by
  interval_cases d <;> decide

theorem digit_char_isDigit (d : Nat) (h : d < 10) :
    isDigitChar (Char.ofNat (48 + d)) = true := by
  interval_cases d <;> decide

theorem natToChars_all_digits (n : Nat) :
    ∀ c ∈ natToChars n, isDigitChar c = true := by
  induction n using Nat.strong_induction_on with
  | _ n ih =>
    by_cases h : n < 10
    · rw [natToChars_small n h]
      intro c hc
      simp at hc
      subst hc
      exact digit_char_isDigit n h
    · rw [natToChars_step n h]
      intro c hc
      rcases List.mem_append.mp hc with h1 | h2
      · exact ih (n / 10) (Nat.div_lt_self (by omega) (by norm_num)) c h1
      · simp at h2
        subst h2
        exact digit_char_isDigit (n % 10) (Nat.mod_lt _ (by norm_num))

theorem digitsToNat_append_digit (l : List Char) (c : Char) :
    digitsToNat (l ++ [c]) = digitsToNat l * 10 + (c.toNat - 48) := by
  simp [digitsToNat, List.foldl_append]

theorem digitsToNat_aux (n : Nat) :
    ∀ a : Nat, (natToChars n).foldl (fun a c => a * 10 + (c.toNat - 48)) a =
      a * 10 ^ (natToChars n).length + n := by
  induction n using Nat.strong_induction_on with
  | _ n ih =>
    intro a
    by_cases h : n < 10
    · rw [natToChars_small n h]
      simp [List.foldl, digit_char_toNat n h]
    · rw [natToChars_step n h]
      rw [List.foldl_append]
      rw [ih (n / 10) (Nat.div_lt_self (by omega) (by norm_num)) a]
      have hm : (Char.ofNat (48 + n % 10)).toNat = 48 + n % 10 :=
        digit_char_toNat (n % 10) (Nat.mod_lt _ (by norm_num))
      simp only [List.foldl, hm, List.length_append, List.length_singleton]
      have hdm : 10 * (n / 10) + n % 10 = n := Nat.div_add_mod n 10
      rw [pow_succ]
      ring_nf
      omega

theorem digitsToNat_natToChars (n : Nat) :
    digitsToNat (natToChars n) = n := by
  have := digitsToNat_aux n 0
  simpa [digitsToNat] using this

theorem natToChars_ne_nil (n : Nat) : natToChars n ≠ [] := by
  by_cases h : n < 10
  · rw [natToChars_small n h]; simp
  · rw [natToChars_step n h]; simp

/-- Attempt to match the part `\s*=\s*(\d+)` of the id pattern at the head
of the list, returning the `parseInt` of the capture group. -/
def matchEqDigits (r : List Char) : Option Nat :=
  let s := skipSpaces r
  if s.headD ' ' = '=' then
    let ds := (readDigits (skipSpaces s.tail)).1
    if ds.isEmpty then none else some (digitsToNat ds)
  else none

/-- Attempt to match `id\s*=\s*(\d+)` at the head of the list (the regex in
`sendToRobotTcpString`, `server/index.js`). -/
def matchIdAt (l : List Char) : Option Nat :=
  if l.headD ' ' = 'i' ∧ l.tail.headD ' ' = 'd' then matchEqDigits l.tail.tail
  else none

/-- First match of `/id\s*=\s*(\d+)/` in the string, scanning start
positions left to right as the JS regex engine does. -/
def firstIdMatch : List Char → Option Nat
  | [] => none
  | c :: r =>
    match matchIdAt (c :: r) with
    | some n => some n
    | none => firstIdMatch r

/-- Attempt to match the stricter client-side pattern `id=(\d+)`
(`RobotProtocolClient.sendCommand`, `src/App.vue`): no whitespace allowed
around the equals sign. -/
def matchIdStrictAt (l : List Char) : Option Nat :=
  if l.headD ' ' = 'i' ∧ l.tail.headD ' ' = 'd' ∧ l.tail.tail.headD ' ' = '='
  then
    let ds := (readDigits l.tail.tail.tail).1
    if ds.isEmpty then none else some (digitsToNat ds)
  else none

/-- First match of `/id=(\d+)/` in the string. -/
def firstIdStrictMatch : List Char → Option Nat
  | [] => none
  | c :: r =>
    match matchIdStrictAt (c :: r) with
    | some n => some n
    | none => firstIdStrictMatch r

/-- Attempt to match `\[id\s*=\s*(\d+)` (case-insensitive) at the head of
the list (`handleRobotResponse`, `server/index.js`). -/
def matchRespIdAt (l : List Char) : Option Nat :=
  if l.headD ' ' = '[' ∧ (l.tail.headD ' ').toLower = 'i' ∧
      (l.tail.tail.headD ' ').toLower = 'd'
  then matchEqDigits l.tail.tail.tail
  else none

/-- First match of `/\[id\s*=\s*(\d+)/i` in the string. -/
def firstRespIdMatch : List Char → Option Nat
  | [] => none
  | c :: r =>
    match matchRespIdAt (c :: r) with
    | some n => some n
    | none => firstRespIdMatch r

/-- Case-insensitive literal match: consume the first argument (given in
lowercase) from the head of the second, comparing lowercased characters. -/
def expectCIStr : List Char → List Char → Option (List Char)
  | [], l => some l
  | _ :: _, [] => none
  | d :: ds, c :: r => if c.toLower = d then expectCIStr ds r else none

/-- Attempt to match `\[(FeedMovFinish|ActMovFinish):\s*(\d+)`
(case-insensitive) at the head of the list, returning the `parseInt` of the
second group (`handleRobotResponse`, `server/index.js`). -/
def matchMotionFinishAt (l : List Char) : Option Nat :=
  if l.headD ' ' = '[' then
    let afterKind : Option (List Char) :=
      match expectCIStr "feedmovfinish".toList l.tail with
      | some r1 => some r1
      | none => expectCIStr "actmovfinish".toList l.tail
    match afterKind with
    | some (':' :: r2) =>
      let ds := (readDigits (skipSpaces r2)).1
      if ds.isEmpty then none else some (digitsToNat ds)
    | _ => none
  else none

/-- First match of `/\[(FeedMovFinish|ActMovFinish):\s*(\d+)/i`. -/
def firstMotionFinishMatch : List Char → Option Nat
  | [] => none
  | c :: r =>
    match matchMotionFinishAt (c :: r) with
    | some n => some n
    | none => firstMotionFinishMatch r

theorem skipSpaces_append_nonspace (t : List Char) (c : Char) (r : List Char)
    (hc : isSpaceChar c = false) :
    skipSpaces (t ++ c :: r) = skipSpaces t ++ c :: r := by
  induction t with
  | nil => simp [skipSpaces, hc]
  | cons a t ih =>
    simp only [List.cons_append, skipSpaces]
    by_cases ha : isSpaceChar a
    · simp [ha, ih]
    · simp [ha]

theorem readDigits_append_nondigit (a : List Char) (x : Char)
    (r : List Char) (hx : isDigitChar x = false) :
    (readDigits (a ++ x :: r)).1 = (readDigits a).1 := by
  induction a with
  | nil => simp [readDigits, hx]
  | cons c a ih =>
    simp only [List.cons_append, readDigits]
    by_cases hc : isDigitChar c
    · simp [hc, ih]
    · simp [hc]

theorem matchEqDigits_append_semi (t r : List Char)
    (h : matchEqDigits t = none) :
    matchEqDigits (t ++ ';' :: r) = none := by
  unfold matchEqDigits at h ⊢
  rw [skipSpaces_append_nonspace t ';' r (by decide)]
  cases hst : skipSpaces t with
  | nil =>
    simp only [List.nil_append, List.headD_cons]
    rw [if_neg (by decide)]
  | cons c u =>
    rw [hst] at h
    simp only [List.cons_append, List.headD_cons, List.tail_cons] at h ⊢
    by_cases hc : c = '='
    · rw [if_pos hc] at h ⊢
      rw [skipSpaces_append_nonspace u ';' r (by decide)]
      rw [readDigits_append_nondigit (skipSpaces u) ';' r (by decide)]
      exact h
    · rw [if_neg hc]

theorem matchIdAt_append_semi (s r : List Char)
    (h : matchIdAt s = none) :
    matchIdAt (s ++ ';' :: r) = none := by
  unfold matchIdAt at h ⊢
  match s with
  | [] =>
    simp only [List.nil_append, List.headD_cons, List.tail_cons]
    rw [if_neg (by simp)]
  | [c] =>
    simp only [List.cons_append, List.nil_append, List.headD_cons,
      List.tail_cons]
    rw [if_neg (by simp)]
  | c1 :: c2 :: t =>
    simp only [List.cons_append, List.headD_cons, List.tail_cons] at h ⊢
    by_cases hid : c1 = 'i' ∧ c2 = 'd'
    · rw [if_pos hid] at h ⊢
      exact matchEqDigits_append_semi t r h
    · rw [if_neg hid]

theorem firstIdMatch_skip_payload (p rest : List Char)
    (h : ∀ t, t <:+ p → matchIdAt (t ++ ';' :: rest) = none) :
    firstIdMatch (p ++ ';' :: rest) = firstIdMatch (';' :: rest) := by
  induction p with
  | nil => simp
  | cons c p ih =>
    have h0 : matchIdAt ((c :: p) ++ ';' :: rest) = none :=
      h (c :: p) (List.suffix_refl _)
    simp only [List.cons_append, firstIdMatch, List.append_eq]
    simp only [List.cons_append] at h0
    rw [h0]
    exact ih fun t ht => h t (ht.trans (List.suffix_cons c p))

theorem isDigit_not_space (c : Char) (h : isDigitChar c = true) :
    isSpaceChar c = false := by
  simp only [isDigitChar, Bool.and_eq_true, Nat.ble_eq] at h
  by_contra hh
  simp only [Bool.not_eq_false, isSpaceChar, Bool.or_eq_true, Bool.and_eq_true,
    Nat.ble_eq, beq_iff_eq] at hh
  omega

theorem skipSpaces_nonspace_head (c : Char) (r : List Char)
    (h : isSpaceChar c = false) : skipSpaces (c :: r) = c :: r := by
  simp [skipSpaces, h]

theorem readDigits_digits_append (a : List Char) (x : Char) (r : List Char)
    (ha : ∀ c ∈ a, isDigitChar c = true) (hx : isDigitChar x = false) :
    readDigits (a ++ x :: r) = (a, x :: r) := by
  induction a with
  | nil => simp [readDigits, hx]
  | cons c a ih =>
    have hc : isDigitChar c = true := ha c (by simp)
    simp only [List.cons_append, readDigits, hc, if_true, List.append_eq]
    rw [ih fun d hd => ha d (by simp [hd])]

theorem firstIdMatch_cons_none (c : Char) (r : List Char)
    (h : matchIdAt (c :: r) = none) :
    firstIdMatch (c :: r) = firstIdMatch r := by
  simp only [firstIdMatch]
  rw [h]

theorem firstIdMatch_cons_some (c : Char) (r : List Char) (n : Nat)
    (h : matchIdAt (c :: r) = some n) :
    firstIdMatch (c :: r) = some n := by
  simp only [firstIdMatch]
  rw [h]

/-- `CommandBuilder.formatCommand` (`src/App.vue`): the command wire encoding
`[<payload>;id=<id>]` produced by the template literal. -/
def formatCommand (payload : List Char) (id : Nat) : List Char :=
  '[' :: payload ++ ';' :: 'i' :: 'd' :: '=' :: (natToChars id ++ [']'])

theorem matchIdAt_id_suffix (n : Nat) :
    matchIdAt ('i' :: 'd' :: '=' :: (natToChars n ++ [']'])) = some n := by
  unfold matchIdAt
  rw [if_pos (by simp)]
  unfold matchEqDigits
  simp only [List.tail_cons]
  rw [skipSpaces_nonspace_head '=' _ (by decide)]
  simp only [List.headD_cons, List.tail_cons]
  rw [if_pos trivial]
  obtain ⟨d, ds, hds⟩ :
      ∃ d ds, natToChars n = d :: ds := by
    cases h : natToChars n with
    | nil => exact absurd h (natToChars_ne_nil n)
    | cons d ds => exact ⟨d, ds, rfl⟩
  have hall : ∀ c ∈ natToChars n, isDigitChar c = true := natToChars_all_digits n
  have hhead : isSpaceChar d = false :=
    isDigit_not_space d (hall d (by rw [hds]; simp))
  rw [hds, List.cons_append, skipSpaces_nonspace_head d _ hhead,
    ← List.cons_append, ← hds]
  rw [readDigits_digits_append (natToChars n) ']' [] hall (by decide)]
  simp only [List.isEmpty_eq_true]
  rw [if_neg (natToChars_ne_nil n)]
  rw [digitsToNat_natToChars n]

theorem firstIdMatch_formatCommand (payload : List Char) (n : Nat)
    (hno : payload.tails.all (fun t => (matchIdAt t).isNone) = true) :
    firstIdMatch (formatCommand payload n) = some n := by
  have hsuffix : ∀ t, t <:+ payload → matchIdAt t = none := by
    intro t ht
    have := (List.all_eq_true.mp hno) t ((List.mem_tails t payload).mpr ht)
    simpa [Option.isNone_iff_eq_none] using this
  unfold formatCommand
  simp only [List.cons_append]
  rw [firstIdMatch_cons_none '[' _ (by unfold matchIdAt; rw [if_neg (by simp)])]
  rw [firstIdMatch_skip_payload payload
    ('i' :: 'd' :: '=' :: (natToChars n ++ [']']))
    (fun t ht => matchIdAt_append_semi t _ (hsuffix t ht))]
  rw [firstIdMatch_cons_none ';' _ (by unfold matchIdAt; rw [if_neg (by simp)])]
  exact firstIdMatch_cons_some 'i' _ n (matchIdAt_id_suffix n)

/-- The character class `[^\]]` of the frame regex. -/
def notRB (c : Char) : Bool := !(c == ']')

theorem dropWhile_length_le (p : Char → Bool) (l : List Char) :
    (l.dropWhile p).length ≤ l.length := by
  induction l with
  | nil => simp [List.dropWhile]
  | cons c r ih =>
    by_cases hc : p c
    · simp only [List.dropWhile, hc]
      exact Nat.le_succ_of_le ih
    · simp [List.dropWhile, hc]

/-- `processResponseBuffer` (`server/index.js` and `unnamed/part_000`): the
complete frames found by repeatedly executing the global regex
`/\[([^\]]+)\]/g` against the buffer, in order. A match needs an opening
bracket, a non-empty run of characters other than `]`, and a closing `]`;
when the attempt at a position fails the engine moves one character to the
right. -/
def scanFrames : List Char → List (List Char)
  | [] => []
  | c :: r =>
    if c = '[' then
      match h : r.dropWhile notRB with
      | ']' :: rest2 =>
        let run := r.takeWhile notRB
        if run.isEmpty then scanFrames r
        else ('[' :: (run ++ [']'])) :: scanFrames rest2
      | _ => scanFrames r
    else scanFrames r
termination_by l => l.length
decreasing_by
  · simp only [List.length_cons]
    omega
  · simp only [List.length_cons]
    have h2 := dropWhile_length_le notRB r
    rw [h] at h2
    simp only [List.length_cons] at h2
    omega
  · simp only [List.length_cons]
    omega
  · simp only [List.length_cons]
    omega

theorem takeWhile_all_append (a : List Char) (x : Char) (r : List Char)
    (ha : ∀ c ∈ a, notRB c = true) (hx : notRB x = false) :
    (a ++ x :: r).takeWhile notRB = a ∧ (a ++ x :: r).dropWhile notRB = x :: r := by
  induction a with
  | nil => simp [List.takeWhile, List.dropWhile, hx]
  | cons c a ih =>
    have hc : notRB c = true := ha c (by simp)
    have := ih fun d hd => ha d (by simp [hd])
    simp only [List.cons_append, List.takeWhile_cons, List.dropWhile_cons, hc,
      if_true]
    exact ⟨by rw [this.1], by rw [this.2]⟩

theorem scanFrames_single (inner : List Char)
    (hne : inner ≠ []) (hno : ∀ c ∈ inner, c ≠ ']') :
    scanFrames ('[' :: (inner ++ [']'])) = ['[' :: (inner ++ [']'])] := by
  have hall : ∀ c ∈ inner, notRB c = true := by
    intro c hc
    simp [notRB, hno c hc]
  have htd := takeWhile_all_append inner ']' [] hall (by decide)
  unfold scanFrames
  rw [if_pos rfl]
  split
  next rest2 hdrop =>
    rw [htd.2] at hdrop
    injection hdrop with _ hrest
    subst hrest
    rw [htd.1]
    rw [if_neg (by simpa [List.isEmpty_eq_true] using hne)]
    simp [scanFrames]
  next hnot =>
    exact absurd (htd.2) (by intro hcontra; exact hnot _ hcontra)

/-- JS `String.prototype.trim` on the characters of `isSpaceChar`. -/
def trimChars (l : List Char) : List Char :=
  ((l.dropWhile isSpaceChar).reverse.dropWhile isSpaceChar).reverse

/-- Worker for `split(/\s+/)`: `cur` accumulates the current token in
reverse; `inSep` records that the scanner is inside a separator run whose
token has already been flushed. -/
def splitWsGo : List Char → List Char → Bool → List (List Char)
  | [], cur, _ => [cur.reverse]
  | c :: rest, cur, inSep =>
    if isSpaceChar c then
      if inSep then splitWsGo rest cur true
      else cur.reverse :: splitWsGo rest [] true
    else splitWsGo rest (c :: cur) false

/-- JS `split(/\s+/)`: tokens between maximal whitespace runs; a leading run
yields an initial empty token and a trailing run a final empty token, and
the empty string yields one empty token, exactly as in JS. -/
def splitWs (s : List Char) : List (List Char) :=
  splitWsGo s [] false

/-- JS `parseFloat`: longest numeric prefix as a rational (`none` models
`NaN`). Handles sign, integer and fraction digits and an optional exponent;
the special literal Infinity is not modelled (it never appears in the
protocol payloads treated here). -/
def jsParseFloat (s : List Char) : Option ℚ :=
  let s1 := skipSpaces s
  let sgn : ℚ := if s1.headD ' ' = '-' then -1 else 1
  let s2 := if s1.headD ' ' = '-' ∨ s1.headD ' ' = '+' then s1.tail else s1
  let ipp := readDigits s2
  let s3 := ipp.2
  let fpp := if s3.headD ' ' = '.' then readDigits s3.tail else ([], s3)
  let s4 := fpp.2
  if ipp.1.isEmpty ∧ fpp.1.isEmpty then none
  else
    let base : ℚ :=
      (digitsToNat ipp.1 : ℚ) + (digitsToNat fpp.1 : ℚ) / (10 : ℚ) ^ fpp.1.length
    let ex : Int :=
      if s4.headD ' ' = 'e' ∨ s4.headD ' ' = 'E' then
        let t := s4.tail
        let esgn : Int := if t.headD ' ' = '-' then -1 else 1
        let t2 := if t.headD ' ' = '-' ∨ t.headD ' ' = '+' then t.tail else t
        let eds := (readDigits t2).1
        if eds.isEmpty then 0 else esgn * (digitsToNat eds : Int)
      else 0
    some (sgn * base * (10 : ℚ) ^ ex)

/-- The JS values that `ProtocolParser` produces as the `data` field of a
response (`src/App.vue`): null, numbers, strings, arrays, and the three
object literals built for the special frames. -/
inductive JsData where
  | jnull
  | jnum (q : ℚ)
  | jstr (s : List Char)
  | jarr (elems : List JsData)
  | jobjMoveFinish (motionType : List Char)
  | jobjRobotStop
  | jobjSafeDoor

/-- `ProtocolParser.parseData` (`src/App.vue`): split the payload on
whitespace, parse each token as a float when possible (else keep the
string), and collapse by token count. -/
def parseData (dataStr : List Char) : JsData :=
  if dataStr.isEmpty then .jnull
  else
    let spaceValues := (splitWs dataStr).map fun s =>
      match jsParseFloat s with
      | some q => JsData.jnum q
      | none => JsData.jstr s
    if 1 < spaceValues.length then .jarr spaceValues
    else
      match spaceValues with
      | [v] =>
        match v with
        | .jnum q => .jnum q
        | .jstr s => if s = "Ok".toList then .jnull else .jstr s
        | w => w
      | _ => .jstr dataStr

/-- Consume one expected character. -/
def expectChar (c : Char) (l : List Char) : Option (List Char) :=
  match l with
  | x :: r => if x = c then some r else none
  | [] => none

/-- Consume one character, case-insensitively (`c` given in lowercase). -/
def expectCI (c : Char) (l : List Char) : Option (List Char) :=
  match l with
  | x :: r => if x.toLower = c then some r else none
  | [] => none

/-- Consume `\d+` (greedy, at least one digit) and return its `parseInt`. -/
def readDigits1 (l : List Char) : Option (Nat × List Char) :=
  let p := readDigits l
  if p.1.isEmpty then none else some (digitsToNat p.1, p.2)

/-- The anchored regex `/^\[id\s*=\s*(\d+)\s*;\s*FAIL\s*\]$/i` of
`ProtocolParser.parseResponse`. -/
def parseFailFrame (l : List Char) : Option Nat := do
  let r ← expectChar '[' l
  let r ← expectCI 'i' r
  let r ← expectCI 'd' r
  let r := skipSpaces r
  let r ← expectChar '=' r
  let r := skipSpaces r
  let (n, r) ← readDigits1 r
  let r := skipSpaces r
  let r ← expectChar ';' r
  let r := skipSpaces r
  let r ← expectCIStr "fail".toList r
  let r := skipSpaces r
  let r ← expectChar ']' r
  if r.isEmpty then some n else none

/-- The anchored regex `/^\[id\s*=\s*(\d+)\s*;\s*Ok\s*(;.*)?\]$/i` of
`ProtocolParser.parseResponse`; returns the id and the optional second
capture group (which includes its leading semicolon). The `.` of the group
excludes line terminators, as in JS. -/
def parseOkFrame (l : List Char) : Option (Nat × Option (List Char)) := do
  let r ← expectChar '[' l
  let r ← expectCI 'i' r
  let r ← expectCI 'd' r
  let r := skipSpaces r
  let r ← expectChar '=' r
  let r := skipSpaces r
  let (n, r) ← readDigits1 r
  let r := skipSpaces r
  let r ← expectChar ';' r
  let r := skipSpaces r
  let r ← expectCIStr "ok".toList r
  let r := skipSpaces r
  if r = [']'] then some (n, none)
  else
    match r with
    | ';' :: _ =>
      if r.getLast? = some ']' ∧
          r.dropLast.all (fun c => !(c == '\n') && !(c == '\r')) then
        some (n, some r.dropLast)
      else none
    | _ => none

/-- The anchored regex `/^\[(FeedMovFinish|ActMovFinish):\s*(\d+)\]$/i`.
The first group is returned in its canonical spelling (the source only
stores it as the `motionType` payload). -/
def parseMovFinishFrame (l : List Char) : Option (List Char × Nat) := do
  let r ← expectChar '[' l
  let (kind, r) ← (
    match expectCIStr "feedmovfinish".toList r with
    | some r1 => some ("FeedMovFinish".toList, r1)
    | none =>
      match expectCIStr "actmovfinish".toList r with
      | some r1 => some ("ActMovFinish".toList, r1)
      | none => none : Option (List Char × List Char))
  let r ← expectChar ':' r
  let r := skipSpaces r
  let (n, r) ← readDigits1 r
  let r ← expectChar ']' r
  if r.isEmpty then some (kind, n) else none

/-- The anchored regex `/^\[RobotStop:\s*(\d+)\]$/i`. -/
def parseRobotStopFrame (l : List Char) : Option Nat := do
  let r ← expectChar '[' l
  let r ← expectCIStr "robotstop".toList r
  let r ← expectChar ':' r
  let r := skipSpaces r
  let (n, r) ← readDigits1 r
  let r ← expectChar ']' r
  if r.isEmpty then some n else none

/-- The anchored regex `/^\[SafeDoorIsOpen:\s*(\d+)\]$/i`. -/
def parseSafeDoorFrame (l : List Char) : Option Nat := do
  let r ← expectChar '[' l
  let r ← expectCIStr "safedoorisopen".toList r
  let r ← expectChar ':' r
  let r := skipSpaces r
  let (n, r) ← readDigits1 r
  let r ← expectChar ']' r
  if r.isEmpty then some n else none

/-- The parsed form of a robot response (`CommandResponse` in
`src/App.vue`). -/
structure CommandResponse where
  id : Nat
  success : Bool
  data : JsData
  error : Option String

/-- `ProtocolParser.parseResponse` (`src/App.vue`): trim, then try the five
anchored frame patterns in the priority order of the source. -/
def parseResponse (response : List Char) : Option CommandResponse :=
  let trimmed := trimChars response
  match parseFailFrame trimmed with
  | some n => some ⟨n, false, .jnull, some "Command failed"⟩
  | none =>
  match parseOkFrame trimmed with
  | some (n, dataPart) =>
    let data :=
      match dataPart with
      | some dp => if 1 < dp.length then parseData (trimChars (dp.drop 1)) else .jnull
      | none => .jnull
    some ⟨n, true, data, none⟩
  | none =>
  match parseMovFinishFrame trimmed with
  | some (kind, n) => some ⟨n, true, .jobjMoveFinish kind, none⟩
  | none =>
  match parseRobotStopFrame trimmed with
  | some n => some ⟨n, false, .jobjRobotStop, some "Robot stopped"⟩
  | none =>
  match parseSafeDoorFrame trimmed with
  | some n => some ⟨n, false, .jobjSafeDoor, some "Safety door is open"⟩
  | none => none

/-- The connection encodings the server can pin (`robotEncoding` in
`server/index.js`). -/
inductive Encoding where
  | utf8
  | utf16le
  | gbk
  | hex
deriving DecidableEq

/-- The single pending command slot entry of the server
(`pendingCommand` in `server/index.js`); the resolve/reject callbacks and
the timer handle are modelled through `ServerEffect`. -/
structure ServerPending where
  id : Nat
deriving DecidableEq

/-- The mutable module-level state of the TCP-string proxy
(`server/index.js`): connection flag, the single pending-command slot, the
pinned encoding, and whether a frontend client with an open socket is
attached (`frontendClient && frontendClient.readyState === 1`). -/
structure ServerState where
  isRobotConnected : Bool
  pendingCommand : Option ServerPending
  robotEncoding : Encoding
  frontendConnected : Bool
deriving DecidableEq

/-- `COMMAND_TIMEOUT` (`server/index.js`): 5 seconds. -/
def COMMAND_TIMEOUT : Nat := 5000

/-- `MODBUS_POLL_INTERVAL` (`server/index.js`): 100 ms. -/
def MODBUS_POLL_INTERVAL : Nat := 100

/-- `startModbusPolling` (`server/index.js`) reads holding registers
starting at address 0. -/
def modbusPollStartAddress : Nat := 0

/-- `startModbusPolling` (`server/index.js`) reads 20 holding registers per
tick. -/
def modbusPollCount : Nat := 20

/-- Externally visible actions of the server correlator: socket writes,
timer arming, settling the pending promise, dropping it silently
(`clearTimeout` + overwrite, so it never settles), forwarding a frame to
the frontend, and STATUS broadcasts. -/
inductive ServerEffect where
  | writeToRobot (command : List Char)
  | startTimer (ms : Nat)
  | dropPending (id : Nat)
  | resolvePending (id : Nat) (response : List Char)
  | rejectPending (id : Nat) (message : String)
  | forwardResponse (response : List Char)
  | sendStatus (connected : Bool)
deriving DecidableEq

/-- Immediate outcome of a command submission: the promise is either kept
pending (accepted) or rejected synchronously. -/
inductive SubmitOutcome where
  | accepted
  | rejectedNotConnected
  | rejectedMissingId
deriving DecidableEq

/-- `sendToRobotTcpString` (`server/index.js`, lines 331-370): reject if
disconnected or if the command carries no id; otherwise clear any previous
pending command (cancelling its timer without settling its promise), write
the command, arm a `COMMAND_TIMEOUT` timer and install the new pending
entry. -/
def sendToRobotTcpString (st : ServerState) (command : List Char) :
    ServerState × List ServerEffect × SubmitOutcome :=
  if ¬ st.isRobotConnected then (st, [], .rejectedNotConnected)
  else
    match firstIdMatch command with
    | none => (st, [], .rejectedMissingId)
    | some commandId =>
      let dropEffs :=
        match st.pendingCommand with
        | some p => [ServerEffect.dropPending p.id]
        | none => []
      ({ st with pendingCommand := some ⟨commandId⟩ },
        dropEffs ++ [ServerEffect.writeToRobot command,
          ServerEffect.startTimer COMMAND_TIMEOUT],
        .accepted)

/-- The `setTimeout` callback armed by `sendToRobotTcpString` firing: if a
pending command is (still) installed, reject it with `Command timeout` and
clear the slot. -/
def commandTimeoutFire (st : ServerState) : ServerState × List ServerEffect :=
  match st.pendingCommand with
  | some p =>
    ({ st with pendingCommand := none },
      [ServerEffect.rejectPending p.id "Command timeout"])
  | none => (st, [])

/-- `handleRobotResponse` (`server/index.js`, lines 253-277): extract a
response id (the `[id = N` pattern, else a motion-finish pattern), resolve
the pending command when the id matches, and forward the frame to the
frontend whenever one is attached. -/
def handleRobotResponse (st : ServerState) (response : List Char) :
    ServerState × List ServerEffect :=
  let responseId : Option Nat :=
    match firstRespIdMatch response with
    | some n => some n
    | none => firstMotionFinishMatch response
  let step : ServerState × List ServerEffect :=
    match st.pendingCommand with
    | some p =>
      match responseId with
      | some rid =>
        if rid = p.id then
          ({ st with pendingCommand := none },
            [ServerEffect.resolvePending p.id response])
        else (st, [])
      | none => (st, [])
    | none => (st, [])
  (step.1,
    step.2 ++
      (if st.frontendConnected then [ServerEffect.forwardResponse response]
       else []))

/-- `handleTcpStringClose` (`server/index.js`, lines 295-310): mark the
robot disconnected, reset the pinned encoding to UTF-8, broadcast a
disconnected STATUS — and leave the pending-command slot untouched. -/
def handleTcpStringClose (st : ServerState) : ServerState × List ServerEffect :=
  ({ st with isRobotConnected := false, robotEncoding := .utf8 },
    if st.frontendConnected then [ServerEffect.sendStatus false] else [])

/-- `handleTcpStringError` (`server/index.js`, lines 279-293): mark the
robot disconnected and broadcast STATUS; neither the encoding nor the
pending slot is touched. -/
def handleTcpStringError (st : ServerState) : ServerState × List ServerEffect :=
  ({ st with isRobotConnected := false },
    if st.frontendConnected then [ServerEffect.sendStatus false] else [])

/-- The close handler of the earlier server variant (`unnamed/part_000`,
lines 151-172): mark disconnected, broadcast STATUS, and reject the pending
command (if any) with `Robot connection closed`, clearing the slot. -/
def robotSocketCloseP000 (st : ServerState) : ServerState × List ServerEffect :=
  let statusEffs :=
    if st.frontendConnected then [ServerEffect.sendStatus false] else []
  match st.pendingCommand with
  | some p =>
    ({ st with isRobotConnected := false, pendingCommand := none },
      statusEffs ++ [ServerEffect.rejectPending p.id "Robot connection closed"])
  | none => ({ st with isRobotConnected := false }, statusEffs)

/-- `Buffer.toString` with encoding `utf16le`: pair bytes little-endian into
16-bit code units; a trailing odd byte is dropped, as Node does. -/
def utf16leDecode : List Nat → List Nat
  | b0 :: b1 :: r => (b0 + 256 * b1) :: utf16leDecode r
  | _ => []

/-- UTF-8 continuation byte test (`0x80..0xBF`). -/
def utf8IsCont (b : Nat) : Bool := Nat.ble 0x80 b && Nat.ble b 0xBF

/-- Valid range of the first continuation byte of a three-byte sequence
(excludes overlong encodings after `0xE0` and surrogates after `0xED`). -/
def utf8Cont1of3Ok (b c1 : Nat) : Bool :=
  if b = 0xE0 then Nat.ble 0xA0 c1 && Nat.ble c1 0xBF
  else if b = 0xED then Nat.ble 0x80 c1 && Nat.ble c1 0x9F
  else utf8IsCont c1

/-- Valid range of the first continuation byte of a four-byte sequence. -/
def utf8Cont1of4Ok (b c1 : Nat) : Bool :=
  if b = 0xF0 then Nat.ble 0x90 c1 && Nat.ble c1 0xBF
  else if b = 0xF4 then Nat.ble 0x80 c1 && Nat.ble c1 0x8F
  else utf8IsCont c1

/-- Worker for the UTF-8 decoder, structurally recursive on a fuel bound
(one unit per input byte, so `utf8Decode` below never exhausts it). -/
def utf8DecodeGo : Nat → List Nat → List Nat
  | 0, _ => []
  | _, [] => []
  | fuel + 1, b :: r =>
    if b < 0x80 then b :: utf8DecodeGo fuel r
    else if 0xC2 ≤ b ∧ b ≤ 0xDF then
      match r with
      | c1 :: r1 =>
        if utf8IsCont c1 then
          ((b - 0xC0) * 64 + (c1 - 0x80)) :: utf8DecodeGo fuel r1
        else 0xFFFD :: utf8DecodeGo fuel r
      | [] => [0xFFFD]
    else if 0xE0 ≤ b ∧ b ≤ 0xEF then
      match r with
      | c1 :: c2 :: r2 =>
        if utf8Cont1of3Ok b c1 ∧ utf8IsCont c2 then
          ((b - 0xE0) * 4096 + (c1 - 0x80) * 64 + (c2 - 0x80)) ::
            utf8DecodeGo fuel r2
        else 0xFFFD :: utf8DecodeGo fuel r
      | _ => [0xFFFD]
    else if 0xF0 ≤ b ∧ b ≤ 0xF4 then
      match r with
      | c1 :: c2 :: c3 :: r3 =>
        if utf8Cont1of4Ok b c1 ∧ utf8IsCont c2 ∧ utf8IsCont c3 then
          ((b - 0xF0) * 262144 + (c1 - 0x80) * 4096 + (c2 - 0x80) * 64 +
            (c3 - 0x80)) :: utf8DecodeGo fuel r3
        else 0xFFFD :: utf8DecodeGo fuel r
      | _ => [0xFFFD]
    else 0xFFFD :: utf8DecodeGo fuel r

/-- `Buffer.toString` with encoding `utf8`: standard UTF-8 decoding where an
invalid or truncated sequence produces the replacement character `0xFFFD`
(this embedding is faithful about when replacements appear, not about how
many a malformed run produces, which no caller of the decode depends on). -/
def utf8Decode (l : List Nat) : List Nat := utf8DecodeGo l.length l

/-- `iconv.decode(data, <gbk>)`: the GBK table lives in the external
iconv-lite library, not in this repository, so it is modelled as a raw byte
passthrough; no theorem below depends on its values, only on the state
transition of the branch that calls it. -/
def gbkDecode (data : List Nat) : List Nat := data

/-- The placeholder chunk `[Encoded data]` substituted in hex mode, as code
units. -/
def encodedDataMarker : List Nat := "[Encoded data]".toList.map Char.toNat

/-- JS `String.prototype.includes` on code-unit lists: substring test, true
for the empty needle. -/
def jsIncludes (hay needle : List Nat) : Bool := decide (needle <:+: hay)

/-- What `handleTcpStringData` does with one socket chunk: echo the
heartbeat byte, or append a decoded chunk to the response buffer. -/
inductive DataOutcome where
  | heartbeatEcho
  | decodedChunk (chunk : List Nat)
deriving DecidableEq

/-- `handleTcpStringData` (`server/index.js`, lines 177-234), up to the
buffer append: the single-byte `0x20` heartbeat is echoed untouched; in
UTF-8 mode the auto-detection branch runs (note the verbatim translation of
the JS condition; `includes` applied to the empty string is always true),
possibly pinning UTF-16LE or GBK; in every other mode the pinned decoding
is applied. -/
def handleTcpStringData (st : ServerState) (data : List Nat) :
    ServerState × DataOutcome :=
  if data.length = 1 ∧ data.headD 0 = 0x20 then (st, .heartbeatEcho)
  else
    match st.robotEncoding with
    | .utf8 =>
      let chunk := utf8Decode data
      if chunk.contains 0xFFFD || jsIncludes chunk [] then
        let utf16chunk := utf16leDecode data
        if utf16chunk.contains 0x5B && utf16chunk.contains 0x3B then
          ({ st with robotEncoding := .utf16le }, .decodedChunk utf16chunk)
        else ({ st with robotEncoding := .gbk }, .decodedChunk (gbkDecode data))
      else (st, .decodedChunk chunk)
    | .hex => (st, .decodedChunk encodedDataMarker)
    | .gbk => (st, .decodedChunk (gbkDecode data))
    | .utf16le => (st, .decodedChunk (utf16leDecode data))

/-- One entry of the client-side pending map (`PendingCommand` in
`src/App.vue`); resolve/reject callbacks are modelled through
`ClientEffect` and `timestamp` is not used by any behaviour verified
here. -/
structure ClientPending where
  id : Nat
  command : List Char
  timeoutMs : Nat
deriving DecidableEq

/-- The state of `RobotProtocolClient` (`src/App.vue`): the connection flag
and the `pendingCommands` map, keyed by command id. -/
structure ClientState where
  connected : Bool
  pendingCommands : List (Nat × ClientPending)

/-- Externally visible actions of the browser-side client. -/
inductive ClientEffect where
  | sendRobotCommand (command : List Char)
  | scheduleTimeout (id : Nat) (ms : Nat)
  | resolveCommand (id : Nat) (resp : CommandResponse)
  | rejectCommand (id : Nat) (message : String)

/-- `Map.prototype.get`. -/
def mapGet (m : List (Nat × ClientPending)) (k : Nat) : Option ClientPending :=
  match m with
  | [] => none
  | (k2, v) :: r => if k2 = k then some v else mapGet r k

/-- `Map.prototype.set` (replace-or-append). -/
def mapSet (m : List (Nat × ClientPending)) (k : Nat) (v : ClientPending) :
    List (Nat × ClientPending) :=
  match m with
  | [] => [(k, v)]
  | (k2, w) :: r => if k2 = k then (k, v) :: r else (k2, w) :: mapSet r k v

/-- `Map.prototype.delete`. -/
def mapDelete (m : List (Nat × ClientPending)) (k : Nat) :
    List (Nat × ClientPending) :=
  m.filter fun e => !(e.1 == k)

/-- `private commandTimeout: number = 5000` (`src/App.vue`). -/
def clientCommandTimeoutDefault : Nat := 5000

/-- Immediate outcome of `RobotProtocolClient.sendCommand`. -/
inductive ClientSubmitOutcome where
  | accepted
  | rejectedNotConnected
  | rejectedMissingId
deriving DecidableEq

/-- `RobotProtocolClient.sendCommand` (`src/App.vue`, lines 1159-1200):
reject if disconnected or the command has no `id=N`; otherwise add a
pending entry to the map (without any busy check), send the command through
the proxy and arm the per-command timer (`timeout || this.commandTimeout`,
so a 0 argument falls back to the 5000 ms default). -/
def sendCommand (st : ClientState) (command : List Char)
    (timeoutArg : Option Nat) :
    ClientState × List ClientEffect × ClientSubmitOutcome :=
  if ¬ st.connected then (st, [], .rejectedNotConnected)
  else
    match firstIdStrictMatch command with
    | none => (st, [], .rejectedMissingId)
    | some id =>
      let tmo :=
        match timeoutArg with
        | some t => if t = 0 then clientCommandTimeoutDefault else t
        | none => clientCommandTimeoutDefault
      let pending : ClientPending := ⟨id, command, tmo⟩
      ({ st with pendingCommands := mapSet st.pendingCommands id pending },
        [ClientEffect.sendRobotCommand command,
          ClientEffect.scheduleTimeout id tmo],
        .accepted)

/-- The messages from the proxy that `RobotProtocolClient.handleMessage`
dispatches on. -/
inductive ServerMessage where
  | robotResponse (response : List Char)
  | statusMsg (connected : Bool) (error : Option String)
  | otherMsg

/-- JS `a || b` on an optional string (empty string is falsy). -/
def jsOrDefault (o : Option String) (d : String) : String :=
  match o with
  | some s => if s = "" then d else s
  | none => d

/-- `RobotProtocolClient.handleMessage` (`src/App.vue`, lines 1205-1236):
on `ROBOT_RESPONSE`, parse the frame; when a pending entry with the frame
id exists, remove it and settle it (resolve on success, reject with
`response.error` with the generic `Command failed` as fallback). On a disconnected `STATUS`, mark
disconnected and reject all pending entries. -/
def handleMessage (st : ClientState) (msg : ServerMessage) :
    ClientState × List ClientEffect :=
  match msg with
  | .robotResponse responseStr =>
    match parseResponse responseStr with
    | some resp =>
      match mapGet st.pendingCommands resp.id with
      | some _ =>
        let st2 := { st with
          pendingCommands := mapDelete st.pendingCommands resp.id }
        if resp.success then (st2, [ClientEffect.resolveCommand resp.id resp])
        else
          (st2, [ClientEffect.rejectCommand resp.id
            (jsOrDefault resp.error "Command failed")])
      | none => (st, [])
    | none => (st, [])
  | .statusMsg connected error =>
    if ¬ connected then
      ({ st with connected := false, pendingCommands := [] },
        st.pendingCommands.map fun e =>
          ClientEffect.rejectCommand e.1 (jsOrDefault error "Robot disconnected"))
    else (st, [])
  | .otherMsg => (st, [])

theorem mapGet_mapDelete (m : List (Nat × ClientPending)) (k : Nat) :
    mapGet (mapDelete m k) k = none := by
  induction m with
  | nil => rfl
  | cons e r ih =>
    obtain ⟨k2, v⟩ := e
    by_cases hk : k2 = k
    · subst hk
      simpa [mapDelete, List.filter_cons] using ih
    · simp only [mapDelete, List.filter_cons] at ih ⊢
      simp [hk, mapGet, ih]

/-- The dashboard coordinate state mutated by `handleModbusData`
(`state.coordinates` in `src/services/robotState.ts`). -/
structure RobotCoordinates where
  x : ℚ
  y : ℚ
  z : ℚ

/-- `handleModbusData` (`src/services/robotState.ts`, lines 329-357): with
at least 3 polled values, store `values[0] || 0`, `values[1] || 0`,
`values[2] || 0` directly as the x, y, z coordinates (no scaling, no
skipping); with at least 9 values, store `values.slice(3, 9)` as the six
joint angles. The change-detection logging is omitted (it does not affect
the stored state). -/
def handleModbusData (coords : RobotCoordinates) (joints : List ℚ)
    (values : List ℚ) : RobotCoordinates × List ℚ :=
  let coords2 :=
    if 3 ≤ values.length then
      { x := values.getD 0 0, y := values.getD 1 0, z := values.getD 2 0 :
        RobotCoordinates }
    else coords
  let joints2 := if 9 ≤ values.length then (values.drop 3).take 6 else joints
  (coords2, joints2)

/-- Modelled from the spec: the register decoding documented in the
register map documented in the repository itself (`unnamed/part_001`, address block
100-108) and in spec section 8 — the x, y, z coordinates are the raw
16-bit values at offsets 0, 2 and 4 of the block divided by 100
(fixed-point, with the interleaved reserved zero registers at offsets 1, 3
and 5 skipped). No code under `src/` implements this decoding. -/
def specRegisterCoordinateDecode (values : List ℚ) : Option RobotCoordinates :=
  if 6 ≤ values.length then
    some { x := values.getD 0 0 / 100, y := values.getD 2 0 / 100,
           z := values.getD 4 0 / 100 }
  else none

/-- `JointPosition` (`src/App.vue`). -/
structure JointPosition where
  j1 : ℚ
  j2 : ℚ
  j3 : ℚ
  j4 : ℚ
  j5 : ℚ
  j6 : ℚ

/-- `CPOSData` (`src/App.vue`). -/
structure CPOSData where
  mod : ℚ
  cf1 : ℚ
  cf2 : ℚ
  cf3 : ℚ
  cf4 : ℚ
  cf5 : ℚ
  cf6 : ℚ
  x : ℚ
  y : ℚ
  z : ℚ
  a : ℚ
  b : ℚ
  c : ℚ

/-- `ProtocolParser.parseJointPosition` (`src/App.vue`, lines 463-473):
`null` on fewer than 6 values, else the positional record of the first six
(`values[i] ?? 0`). -/
def parseJointPosition (values : List ℚ) : Option JointPosition :=
  if values.length < 6 then none
  else some
    { j1 := values.getD 0 0, j2 := values.getD 1 0, j3 := values.getD 2 0,
      j4 := values.getD 3 0, j5 := values.getD 4 0, j6 := values.getD 5 0 }

/-- `ProtocolParser.parseWorldPositionV3` (`src/App.vue`, lines 440-457):
`null` on fewer than 13 values, else the positional record of the first
thirteen (`values[i] ?? 0`). -/
def parseWorldPositionV3 (values : List ℚ) : Option CPOSData :=
  if values.length < 13 then none
  else some
    { mod := values.getD 0 0, cf1 := values.getD 1 0, cf2 := values.getD 2 0,
      cf3 := values.getD 3 0, cf4 := values.getD 4 0, cf5 := values.getD 5 0,
      cf6 := values.getD 6 0, x := values.getD 7 0, y := values.getD 8 0,
      z := values.getD 9 0, a := values.getD 10 0, b := values.getD 11 0,
      c := values.getD 12 0 }

theorem getD_eq_get_of_lt (l : List ℚ) (i : Nat) (d : ℚ) (h : i < l.length) :
    l.getD i d = l.get ⟨i, h⟩ :=
  List.getD_eq_get l d h

/-- C1 (counterexample): with command id 1 outstanding, submitting a second
command (id 2) through `sendToRobotTcpString` is accepted — not rejected
with a busy error — and the outstanding `PendingCommand` is mutated: its
timer is cancelled and the slot now holds id 2. On the browser side,
`sendCommand` holds two pending commands at once, so even the
at-most-one-`PendingCommand` reading fails there. -/
theorem c1_counterexample :
    (let st0 : ServerState := ⟨true, none, .utf8, true⟩
     let st1 := (sendToRobotTcpString st0 ("[getCurJPos();id=1]".toList)).1
     let step2 := sendToRobotTcpString st1 ("[getCurWPos();id=2]".toList)
     st1.pendingCommand = some ⟨1⟩ ∧
     step2.2.2 = SubmitOutcome.accepted ∧
     step2.1.pendingCommand = some ⟨2⟩ ∧
     ServerEffect.dropPending 1 ∈ step2.2.1) ∧
    (let c0 : ClientState := ⟨true, []⟩
     let c1 := (sendCommand c0 ("[getCurJPos();id=1]".toList) none).1
     let c2 := (sendCommand c1 ("[getCurWPos();id=2]".toList) none).1
     c2.pendingCommands.length = 2) := by
  constructor
  · refine ⟨by decide, by decide, by decide, by decide⟩
  · decide

/-- C1 (amended): the server keeps at most one `PendingCommand` — a single
slot — but a second submission while one is outstanding is accepted rather
than rejected with a busy error: the timer of the outstanding command is
cancelled and its promise silently dropped (never resolved or rejected),
and the slot is overwritten with the new command. -/
theorem c1_second_submit_replaces (st : ServerState) (command : List Char)
    (cid : Nat) (p : ServerPending)
    (hconn : st.isRobotConnected = true)
    (hid : firstIdMatch command = some cid)
    (hp : st.pendingCommand = some p) :
    sendToRobotTcpString st command =
      ({ st with pendingCommand := some ⟨cid⟩ },
        [ServerEffect.dropPending p.id, ServerEffect.writeToRobot command,
          ServerEffect.startTimer COMMAND_TIMEOUT],
        SubmitOutcome.accepted) := by
  simp [sendToRobotTcpString, hconn, hid, hp]

/-- C1 (witness): the amended behaviour at a concrete state. -/
theorem c1_second_submit_replaces_witness :
    sendToRobotTcpString ⟨true, some ⟨1⟩, .utf8, true⟩
        ("[getCurWPos();id=2]".toList) =
      (⟨true, some ⟨2⟩, .utf8, true⟩,
        [ServerEffect.dropPending 1,
          ServerEffect.writeToRobot ("[getCurWPos();id=2]".toList),
          ServerEffect.startTimer COMMAND_TIMEOUT],
        SubmitOutcome.accepted) :=
  c1_second_submit_replaces ⟨true, some ⟨1⟩, .utf8, true⟩
    ("[getCurWPos();id=2]".toList) 2 ⟨1⟩ rfl (by decide) rfl

/-- C3 (counterexample): in the consolidated server, the transport-close
handler leaves a pending command (id 7) in the slot and emits no rejection
— the pending slot is not cleared and no connection-closed error reaches
the command. -/
theorem c3_counterexample :
    (handleTcpStringClose ⟨true, some ⟨7⟩, .utf16le, true⟩).1.pendingCommand =
      some ⟨7⟩ ∧
    (handleTcpStringClose ⟨true, some ⟨7⟩, .utf16le, true⟩).2 =
      [ServerEffect.sendStatus false] := by
  constructor
  · decide
  · decide

/-- C3 (amended): when the controller transport closes while a command is
pending, the consolidated server (`handleTcpStringClose`) leaves the
pending slot untouched and emits no rejection (the command is only
rejected later by its timeout); the earlier variant (`unnamed/part_000`)
rejects the pending command with `Robot connection closed` and clears the
slot. -/
theorem c3_close_pending (st : ServerState) (p : ServerPending)
    (hp : st.pendingCommand = some p) :
    (handleTcpStringClose st).1.pendingCommand = some p ∧
    (∀ e ∈ (handleTcpStringClose st).2, ∀ i m,
      e ≠ ServerEffect.rejectPending i m) ∧
    (robotSocketCloseP000 st).1.pendingCommand = none ∧
    ServerEffect.rejectPending p.id "Robot connection closed" ∈
      (robotSocketCloseP000 st).2 := by
  refine ⟨by simp [handleTcpStringClose, hp], ?_,
    by simp [robotSocketCloseP000, hp], by simp [robotSocketCloseP000, hp]⟩
  intro e he i m
  simp only [handleTcpStringClose] at he
  by_cases hf : st.frontendConnected
  · simp [hf] at he
    subst he
    simp
  · simp [hf] at he

/-- C3 (witness): the amended behaviour at a concrete state with pending
id 7. -/
theorem c3_close_pending_witness :
    (handleTcpStringClose ⟨true, some ⟨7⟩, .utf16le, true⟩).1.pendingCommand =
      some ⟨7⟩ ∧
    (∀ e ∈ (handleTcpStringClose ⟨true, some ⟨7⟩, .utf16le, true⟩).2, ∀ i m,
      e ≠ ServerEffect.rejectPending i m) ∧
    (robotSocketCloseP000 ⟨true, some ⟨7⟩, .utf16le, true⟩).1.pendingCommand =
      none ∧
    ServerEffect.rejectPending 7 "Robot connection closed" ∈
      (robotSocketCloseP000 ⟨true, some ⟨7⟩, .utf16le, true⟩).2 :=
  c3_close_pending ⟨true, some ⟨7⟩, .utf16le, true⟩ ⟨7⟩ rfl

/-- C10: every complete frame handled by `handleRobotResponse` is forwarded
to the connected browser client as a `ROBOT_RESPONSE`, unconditionally —
including when the id of the frame matches and resolves the pending command, in
which case the effects are exactly the resolution followed by the
forward. -/
theorem c10_forward_unconditional (st : ServerState) (response : List Char)
    (hfc : st.frontendConnected = true) :
    ServerEffect.forwardResponse response ∈
      (handleRobotResponse st response).2 ∧
    (∀ p rid, st.pendingCommand = some p →
      firstRespIdMatch response = some rid → rid = p.id →
      handleRobotResponse st response =
        ({ st with pendingCommand := none },
          [ServerEffect.resolvePending p.id response,
            ServerEffect.forwardResponse response])) := by
  constructor
  · simp [handleRobotResponse, hfc]
  · intro p rid hp hm heq
    simp [handleRobotResponse, hfc, hp, hm, heq]

/-- C10 (witness): a matching frame for pending id 3 resolves the command
and is still forwarded. -/
theorem c10_forward_unconditional_witness :
    ServerEffect.forwardResponse ("[id = 3; Ok]".toList) ∈
      (handleRobotResponse ⟨true, some ⟨3⟩, .utf8, true⟩
        ("[id = 3; Ok]".toList)).2 ∧
    handleRobotResponse ⟨true, some ⟨3⟩, .utf8, true⟩ ("[id = 3; Ok]".toList) =
      (⟨true, none, .utf8, true⟩,
        [ServerEffect.resolvePending 3 ("[id = 3; Ok]".toList),
          ServerEffect.forwardResponse ("[id = 3; Ok]".toList)]) :=
  ⟨(c10_forward_unconditional ⟨true, some ⟨3⟩, .utf8, true⟩
      ("[id = 3; Ok]".toList) rfl).1,
    (c10_forward_unconditional ⟨true, some ⟨3⟩, .utf8, true⟩
      ("[id = 3; Ok]".toList) rfl).2 ⟨3⟩ 3 rfl (by decide) rfl⟩

/-- C4 (code bug): on the poll result `[50100, 0, 17332, 0, 17679, 0]` the
code (`handleModbusData`) stores the raw register values
`{x = 50100, y = 0, z = 17332}` — no divide-by-100 and no skipping of the
reserved zero registers — while the register-map document of the repository itself
(`unnamed/part_001`) and the spec prescribe `{x = 501, y = 173.32,
z = 176.79}`. The server moreover polls registers starting at address 0,
not at the documented coordinate block at address 100. -/
theorem c4_register_decode_mismatch :
    (handleModbusData ⟨0, 0, 0⟩ [] [50100, 0, 17332, 0, 17679, 0]).1 =
      ⟨50100, 0, 17332⟩ ∧
    specRegisterCoordinateDecode [50100, 0, 17332, 0, 17679, 0] =
      some ⟨501, 173.32, 176.79⟩ ∧
    (⟨50100, 0, 17332⟩ : RobotCoordinates) ≠ ⟨501, 173.32, 176.79⟩ ∧
    modbusPollStartAddress = 0 ∧ modbusPollCount = 20 := by
  refine ⟨?_, ?_, ?_, rfl, rfl⟩
  · rfl
  · simp only [specRegisterCoordinateDecode]
    norm_num
  · intro h
    have hx := congrArg RobotCoordinates.x h
    norm_num at hx

/-- C6: `COMMAND_TIMEOUT` is 5000 ms and every accepted submission arms a
timer of that duration; when the timer fires with the command still
pending, the promise is rejected with `Command timeout` and the slot is
cleared; a frame arriving once the slot is empty is treated as unsolicited
— `handleRobotResponse` resolves nothing, leaves the state unchanged and
only forwards the frame to the frontend. -/
theorem c6_timeout_then_unsolicited :
    COMMAND_TIMEOUT = 5000 ∧
    (∀ (st : ServerState) (command : List Char) (cid : Nat),
      st.isRobotConnected = true → firstIdMatch command = some cid →
      ServerEffect.startTimer COMMAND_TIMEOUT ∈
        (sendToRobotTcpString st command).2.1) ∧
    (∀ (st : ServerState) (p : ServerPending), st.pendingCommand = some p →
      commandTimeoutFire st =
        ({ st with pendingCommand := none },
          [ServerEffect.rejectPending p.id "Command timeout"])) ∧
    (∀ (st : ServerState) (response : List Char), st.pendingCommand = none →
      st.frontendConnected = true →
      handleRobotResponse st response =
        (st, [ServerEffect.forwardResponse response])) := by
  refine ⟨rfl, ?_, ?_, ?_⟩
  · intro st command cid hconn hid
    simp only [sendToRobotTcpString, hconn, hid]
    cases st.pendingCommand <;> simp
  · intro st p hp
    simp [commandTimeoutFire, hp]
  · intro st response hp hfc
    simp [handleRobotResponse, hp, hfc]

/-- C6 (witness): the three conditional parts at concrete states — a
submission arming the 5000 ms timer, the timeout rejecting pending id 7,
and a late frame for id 7 being forwarded without resolving anything. -/
theorem c6_timeout_then_unsolicited_witness :
    ServerEffect.startTimer COMMAND_TIMEOUT ∈
      (sendToRobotTcpString ⟨true, none, .utf8, true⟩
        ("[getCurJPos();id=7]".toList)).2.1 ∧
    commandTimeoutFire ⟨true, some ⟨7⟩, .utf8, true⟩ =
      (⟨true, none, .utf8, true⟩,
        [ServerEffect.rejectPending 7 "Command timeout"]) ∧
    handleRobotResponse ⟨true, none, .utf8, true⟩ ("[id = 7; Ok]".toList) =
      (⟨true, none, .utf8, true⟩,
        [ServerEffect.forwardResponse ("[id = 7; Ok]".toList)]) :=
  ⟨c6_timeout_then_unsolicited.2.1 ⟨true, none, .utf8, true⟩
      ("[getCurJPos();id=7]".toList) 7 rfl (by decide),
    c6_timeout_then_unsolicited.2.2.1 ⟨true, some ⟨7⟩, .utf8, true⟩ ⟨7⟩ rfl,
    c6_timeout_then_unsolicited.2.2.2 ⟨true, none, .utf8, true⟩
      ("[id = 7; Ok]".toList) rfl rfl⟩

/-- C9: the positional unpackers have fixed arity — `parseJointPosition`
returns `none` exactly when fewer than 6 values are present and otherwise
the record of the actual first six values (no silent defaulting), and
`parseWorldPositionV3` likewise with arity 13. -/
theorem c9_fixed_arity_unpackers (values : List ℚ) :
    ((values.length < 6 → parseJointPosition values = none) ∧
      ∀ h : 6 ≤ values.length,
        parseJointPosition values = some
          { j1 := values.get ⟨0, by omega⟩, j2 := values.get ⟨1, by omega⟩,
            j3 := values.get ⟨2, by omega⟩, j4 := values.get ⟨3, by omega⟩,
            j5 := values.get ⟨4, by omega⟩, j6 := values.get ⟨5, by omega⟩ }) ∧
    ((values.length < 13 → parseWorldPositionV3 values = none) ∧
      ∀ h : 13 ≤ values.length,
        parseWorldPositionV3 values = some
          { mod := values.get ⟨0, by omega⟩, cf1 := values.get ⟨1, by omega⟩,
            cf2 := values.get ⟨2, by omega⟩, cf3 := values.get ⟨3, by omega⟩,
            cf4 := values.get ⟨4, by omega⟩, cf5 := values.get ⟨5, by omega⟩,
            cf6 := values.get ⟨6, by omega⟩, x := values.get ⟨7, by omega⟩,
            y := values.get ⟨8, by omega⟩, z := values.get ⟨9, by omega⟩,
            a := values.get ⟨10, by omega⟩, b := values.get ⟨11, by omega⟩,
            c := values.get ⟨12, by omega⟩ }) := by
  refine ⟨⟨fun h => by simp [parseJointPosition, h], fun h => ?_⟩,
    ⟨fun h => by simp [parseWorldPositionV3, h], fun h => ?_⟩⟩
  · simp only [parseJointPosition]
    rw [if_neg (by omega)]
    rw [getD_eq_get_of_lt values 0 0 (by omega),
      getD_eq_get_of_lt values 1 0 (by omega),
      getD_eq_get_of_lt values 2 0 (by omega),
      getD_eq_get_of_lt values 3 0 (by omega),
      getD_eq_get_of_lt values 4 0 (by omega),
      getD_eq_get_of_lt values 5 0 (by omega)]
  · simp only [parseWorldPositionV3]
    rw [if_neg (by omega)]
    rw [getD_eq_get_of_lt values 0 0 (by omega),
      getD_eq_get_of_lt values 1 0 (by omega),
      getD_eq_get_of_lt values 2 0 (by omega),
      getD_eq_get_of_lt values 3 0 (by omega),
      getD_eq_get_of_lt values 4 0 (by omega),
      getD_eq_get_of_lt values 5 0 (by omega),
      getD_eq_get_of_lt values 6 0 (by omega),
      getD_eq_get_of_lt values 7 0 (by omega),
      getD_eq_get_of_lt values 8 0 (by omega),
      getD_eq_get_of_lt values 9 0 (by omega),
      getD_eq_get_of_lt values 10 0 (by omega),
      getD_eq_get_of_lt values 11 0 (by omega),
      getD_eq_get_of_lt values 12 0 (by omega)]

/-- C9 (witness): six joint values decode to the positional record, five do
not; thirteen world values decode, twelve do not. -/
theorem c9_fixed_arity_unpackers_witness :
    parseJointPosition [10, 20, 30, 40, 50, 60] =
      some { j1 := 10, j2 := 20, j3 := 30, j4 := 40, j5 := 50, j6 := 60 } ∧
    parseJointPosition [10, 20, 30, 40, 50] = none ∧
    parseWorldPositionV3 [0, 1, 2, 3, 4, 5, 6, 7, 8, 9, 10, 11, 12] =
      some { mod := 0, cf1 := 1, cf2 := 2, cf3 := 3, cf4 := 4, cf5 := 5,
             cf6 := 6, x := 7, y := 8, z := 9, a := 10, b := 11, c := 12 } ∧
    parseWorldPositionV3 [0, 1, 2, 3, 4, 5, 6, 7, 8, 9, 10, 11] = none :=
  ⟨((c9_fixed_arity_unpackers [10, 20, 30, 40, 50, 60]).1.2 (by norm_num)),
    ((c9_fixed_arity_unpackers [10, 20, 30, 40, 50]).1.1 (by norm_num)),
    ((c9_fixed_arity_unpackers
      [0, 1, 2, 3, 4, 5, 6, 7, 8, 9, 10, 11, 12]).2.2 (by norm_num)),
    ((c9_fixed_arity_unpackers
      [0, 1, 2, 3, 4, 5, 6, 7, 8, 9, 10, 11]).2.1 (by norm_num))⟩

theorem digit_ne_rb (c : Char) (h : isDigitChar c = true) : c ≠ ']' := by
  intro he
  rw [he] at h
  exact absurd h (by decide)

/-- C2 (counterexample): the round-trip fails for a payload that itself
contains the id pattern. `encode("SetVar(id=3)", 7)` yields the single
frame `[SetVar(id=3);id=7]` — the payload contains no `]` and 7 is in
range — but the id extraction used on command strings
(`/id\s*=\s*(\d+)/`, first match) returns 3, not 7. -/
theorem c2_counterexample :
    (']' ∉ ("SetVar(id=3)".toList)) ∧ (7 : Nat) ≤ 9999 ∧
    scanFrames (formatCommand ("SetVar(id=3)".toList) 7) =
      [formatCommand ("SetVar(id=3)".toList) 7] ∧
    firstIdMatch (formatCommand ("SetVar(id=3)".toList) 7) = some 3 ∧
    (3 : Nat) ≠ 7 := by
  have hfc : formatCommand ("SetVar(id=3)".toList) 7 =
      "[SetVar(id=3);id=7]".toList := by
    unfold formatCommand
    rw [natToChars_small 7 (by norm_num)]
    decide
  refine ⟨by decide, by norm_num, ?_, ?_, by norm_num⟩
  · rw [hfc]
    have h := scanFrames_single ("SetVar(id=3);id=7".toList) (by decide)
      (by decide)
    rw [show ('[' :: ("SetVar(id=3);id=7".toList ++ [']'])) =
      "[SetVar(id=3);id=7]".toList from by decide] at h
    exact h
  · rw [hfc]
    decide

/-- C2 (amended): for every payload containing no `]` and no occurrence of
the id pattern `id\s*=\s*\d+`, and every id `N ≤ 9999`, the encoded command
`[payload;id=N]` is extracted from the buffer as exactly one frame — the
whole encoding — and the id extracted from it equals `N`. -/
theorem c2_encode_decode_id (payload : List Char) (n : Nat)
    (hn : n ≤ 9999) (hrb : ']' ∉ payload)
    (hno : payload.tails.all (fun t => (matchIdAt t).isNone) = true) :
    scanFrames (formatCommand payload n) = [formatCommand payload n] ∧
    firstIdMatch (formatCommand payload n) = some n := by
  constructor
  · have hshape : formatCommand payload n =
        '[' :: ((payload ++ ';' :: 'i' :: 'd' :: '=' :: natToChars n) ++
          [']']) := by
      simp [formatCommand, List.append_assoc]
    rw [hshape]
    refine scanFrames_single _ (by simp) ?_
    intro c hc
    rcases List.mem_append.mp hc with h1 | h2
    · exact fun he => hrb (he ▸ h1)
    · simp only [List.mem_cons] at h2
      rcases h2 with h | h | h | h | h
    
      · subst h; decide
      · subst h; decide
      · subst h; decide
      · subst h; decide
      · exact digit_ne_rb c (natToChars_all_digits n c h)
  · exact firstIdMatch_formatCommand payload n hno

/-- C2 (witness): the amended round-trip at payload `getCurJPos()` and
id 7. -/
theorem c2_encode_decode_id_witness :
    scanFrames (formatCommand ("getCurJPos()".toList) 7) =
      [formatCommand ("getCurJPos()".toList) 7] ∧
    firstIdMatch (formatCommand ("getCurJPos()".toList) 7) = some 7 :=
  c2_encode_decode_id ("getCurJPos()".toList) 7 (by norm_num) (by decide)
    (by decide)

/-- C5: a `[RobotStop: 7]` frame while command id 7 is outstanding is
forwarded by the server to the browser client, where `handleMessage`
rejects the pending command with the stop-condition reason `Robot stopped`
(not the generic `Command failed`) and clears the id-7 entry from the
pending map. -/
theorem c5_robot_stop_rejects (sst : ServerState) (cst : ClientState)
    (pc : ClientPending)
    (hfc : sst.frontendConnected = true)
    (hpc : mapGet cst.pendingCommands 7 = some pc) :
    ServerEffect.forwardResponse ("[RobotStop: 7]".toList) ∈
      (handleRobotResponse sst ("[RobotStop: 7]".toList)).2 ∧
    (handleMessage cst (.robotResponse ("[RobotStop: 7]".toList))).2 =
      [ClientEffect.rejectCommand 7 "Robot stopped"] ∧
    mapGet (handleMessage cst
      (.robotResponse ("[RobotStop: 7]".toList))).1.pendingCommands 7 =
      none := by
  have hparse : parseResponse ("[RobotStop: 7]".toList) =
      some ⟨7, false, .jobjRobotStop, some "Robot stopped"⟩ := rfl
  refine ⟨by simp [handleRobotResponse, hfc], ?_, ?_⟩
  · simp only [handleMessage]
    rw [hparse]
    simp [hpc, jsOrDefault]
  · simp only [handleMessage]
    rw [hparse]
    simp [hpc, mapGet_mapDelete]

/-- C5 (witness): the scenario at concrete server and client states with
pending id 7. -/
theorem c5_robot_stop_rejects_witness :
    ServerEffect.forwardResponse ("[RobotStop: 7]".toList) ∈
      (handleRobotResponse ⟨true, some ⟨7⟩, .utf8, true⟩
        ("[RobotStop: 7]".toList)).2 ∧
    (handleMessage ⟨true, [(7, ⟨7, "[stopRun();id=7]".toList, 5000⟩)]⟩
      (.robotResponse ("[RobotStop: 7]".toList))).2 =
      [ClientEffect.rejectCommand 7 "Robot stopped"] ∧
    mapGet (handleMessage ⟨true, [(7, ⟨7, "[stopRun();id=7]".toList, 5000⟩)]⟩
      (.robotResponse ("[RobotStop: 7]".toList))).1.pendingCommands 7 =
      none :=
  c5_robot_stop_rejects ⟨true, some ⟨7⟩, .utf8, true⟩
    ⟨true, [(7, ⟨7, "[stopRun();id=7]".toList, 5000⟩)]⟩
    ⟨7, "[stopRun();id=7]".toList, 5000⟩ rfl rfl

set_option maxHeartbeats 2000000 in
/-- C7: `parseData` on `1.1 2.2 3.3` yields the ordered numeric sequence,
on `Ok` yields null, and on `42` yields the scalar 42. -/
theorem c7_parseData_examples :
    parseData ("1.1 2.2 3.3".toList) =
      JsData.jarr [.jnum 1.1, .jnum 2.2, .jnum 3.3] ∧
    parseData ("Ok".toList) = .jnull ∧
    parseData ("42".toList) = .jnum 42 := by
  refine ⟨?_, rfl, ?_⟩
  · simp [parseData, splitWs, splitWsGo, jsParseFloat, readDigits, isDigitChar,
      isSpaceChar, skipSpaces, digitsToNat]
    norm_num
  · simp [parseData, splitWs, splitWsGo, jsParseFloat, readDigits, isDigitChar,
      isSpaceChar, skipSpaces, digitsToNat]

/-- C8: in UTF-8 mode, a chunk whose UTF-8 decode contains the replacement
marker and whose UTF-16LE reinterpretation contains both `[` and `;` pins
the connection encoding to UTF-16LE and is delivered as its UTF-16LE
decode; once pinned, every subsequent (non-heartbeat) chunk is decoded as
UTF-16LE; and the transport-close handler resets detection to
UTF-8-first. -/
theorem c8_encoding_fallback :
    (∀ (st : ServerState) (data : List Nat), st.robotEncoding = .utf8 →
      (utf8Decode data).contains 0xFFFD = true →
      (utf16leDecode data).contains 0x5B = true →
      (utf16leDecode data).contains 0x3B = true →
      data ≠ [0x20] →
      handleTcpStringData st data =
        ({ st with robotEncoding := .utf16le },
          .decodedChunk (utf16leDecode data))) ∧
    (∀ (st : ServerState) (data : List Nat), st.robotEncoding = .utf16le →
      data ≠ [0x20] →
      handleTcpStringData st data = (st, .decodedChunk (utf16leDecode data))) ∧
    (∀ st : ServerState, (handleTcpStringClose st).1.robotEncoding = .utf8) := by
  have hguard : ∀ data : List Nat, data ≠ [0x20] →
      ¬ (data.length = 1 ∧ data.headD 0 = 0x20) := by
    intro data hne ⟨hlen, hhd⟩
    match data, hlen with
    | [a], _ =>
      simp only [List.headD_cons] at hhd
      exact hne (by rw [hhd])
  refine ⟨?_, ?_, ?_⟩
  · intro st data henc hffd h5b h3b hhb
    unfold handleTcpStringData
    rw [if_neg (hguard data hhb), henc]
    have hffd2 : (0xFFFD : Nat) ∈ utf8Decode data := by simpa using hffd
    have h5b2 : (0x5B : Nat) ∈ utf16leDecode data := by simpa using h5b
    have h3b2 : (0x3B : Nat) ∈ utf16leDecode data := by simpa using h3b
    simp [hffd2, h5b2, h3b2]
  · intro st data henc hhb
    unfold handleTcpStringData
    rw [if_neg (hguard data hhb), henc]
  · intro st
    simp [handleTcpStringClose]

/-- C8 (witness): the chunk `5B 00 3B 00 80` (UTF-16LE text containing `[`
and `;` with a stray continuation byte making the UTF-8 decode invalid)
switches a UTF-8-mode connection to UTF-16LE; a further chunk decodes as
UTF-16LE; closing resets the encoding to UTF-8. -/
theorem c8_encoding_fallback_witness :
    handleTcpStringData ⟨true, none, .utf8, true⟩ [0x5B, 0, 0x3B, 0, 0x80] =
      (⟨true, none, .utf16le, true⟩, .decodedChunk [0x5B, 0x3B]) ∧
    handleTcpStringData ⟨true, none, .utf16le, true⟩ [0x41, 0] =
      (⟨true, none, .utf16le, true⟩, .decodedChunk [0x41]) ∧
    (handleTcpStringClose ⟨true, none, .utf16le, true⟩).1.robotEncoding =
      .utf8 :=
  ⟨by
    have h := c8_encoding_fallback.1 ⟨true, none, .utf8, true⟩
      [0x5B, 0, 0x3B, 0, 0x80] rfl (by decide) (by decide) (by decide)
      (by decide)
    simpa using h,
   by
    have h := c8_encoding_fallback.2.1 ⟨true, none, .utf16le, true⟩
      [0x41, 0] rfl (by decide)
    simpa using h,
   c8_encoding_fallback.2.2 ⟨true, none, .utf16le, true⟩⟩
